import Mathlib

/-!
Shallow embedding, in Lean 4, of the golem marketplace / reputation /
application-registry slice:

* `src/golem/apps/manager.py` — `AppManager` and `AppStates` (the
  dictionary-like façade over the `AppConfiguration` database table),
* `src/golem/marketplace/marketplace.py` — `ProviderPricing` and the
  (abstract) provider market strategy,
* the `golem.model` entities exercised by `src/tests/golem/test_model.py`
  (`TaskPayment`, `Performance`, `LocalRank` with its efficacy projection);
  `golem.model` itself is not part of the sampled sources, so those entities
  are modelled from the specification, each marked `Modelled from the spec:`.

Database tables are embedded as association lists with unique keys (the
columns involved are primary/unique keys, so at most one row per key exists);
Python exceptions are embedded as `Except` with an explicit error type; the
dynamic typing that `AppStates` checks at run time is embedded by a `PyVal`
sum of the Python value shapes that can reach it.
-/

/-- The Python run-time values that can reach the `AppStates` mapping
interface: strings, booleans, integers and `None`.  `AppStates` checks
`isinstance(key, str)` / `isinstance(val, bool)` dynamically, so the
embedding keys those operations over this sum type. -/
inductive PyVal where
  | str (s : String)
  | boolean (b : Bool)
  | int (n : Int)
  | pyNone
deriving DecidableEq

/-- `type(v)` rendered as a short name, used in the `TypeError` messages. -/
def PyVal.typeName : PyVal → String
  | .str _ => "str"
  | .boolean _ => "bool"
  | .int _ => "int"
  | .pyNone => "NoneType"

/-- `isinstance(v, str)`. -/
def PyVal.isStr : PyVal → Bool
  | .str _ => true
  | _ => false

/-- `isinstance(v, bool)` (in Python a genuine `bool`, not a mere `int`). -/
def PyVal.isBool : PyVal → Bool
  | .boolean _ => true
  | _ => false

/-- The Python exceptions raised by the embedded code. -/
inductive PyError where
  | typeError (msg : String)
  | keyError (key : String)
  | valueError (msg : String)
deriving DecidableEq

/-- One row of the `AppConfiguration` table: `app_id` (primary key) and
`enabled`.  The table is an association list with at most one row per key. -/
abbrev AppConfigTable := List (String × Bool)

namespace AppConfigTable

/-- `SELECT ... WHERE app_id == key .exists()`: is there a row for `key`? -/
def containsKey : AppConfigTable → String → Bool
  | [], _ => false
  | (k, _) :: rest, key => k = key || containsKey rest key

/-- `AppConfiguration.get(app_id == key).enabled`, as an `Option`:
`none` is peewee's `DoesNotExist`. -/
def lookup : AppConfigTable → String → Option Bool
  | [], _ => none
  | (k, v) :: rest, key => if k = key then some v else lookup rest key

/-- `AppConfiguration.insert(app_id=key, enabled=val).upsert().execute()`:
replace the (unique) row for `key` if present, insert it otherwise. -/
def upsert : AppConfigTable → String → Bool → AppConfigTable
  | [], key, val => [(key, val)]
  | (k, v) :: rest, key, val =>
    if k = key then (key, val) :: rest else (k, v) :: upsert rest key val

/-- `AppConfiguration.delete().where(app_id == key).execute()`: remove the
rows matching `key` and report how many were removed.  A peewee DELETE query
returns this row count; it does not raise `DoesNotExist` when no row
matches.  The `where` clause compares the string column `app_id` with the
given value, so a non-string key matches no row. -/
def deleteWhere (tbl : AppConfigTable) (key : PyVal) : AppConfigTable × Nat :=
  match key with
  | .str k =>
    let remaining := tbl.filter (fun r => r.1 ≠ k)
    (remaining, tbl.length - remaining.length)
  | _ => (tbl, 0)

end AppConfigTable

/- `AppStates` (src/golem/apps/manager.py, lines 120-158): a mapping façade
over the `AppConfiguration` table.  Each dunder method becomes a function
from the key (and value) and the current table to an `Except` result. -/
namespace AppStates

/-- `AppStates._raise_no_str_type` (lines 156-158). -/
def noStrTypeError (key : PyVal) : PyError :=
  PyError.typeError ("Key is of type " ++ key.typeName ++ "; str expected")

/-- `AppStates.__contains__` (lines 122-128): `TypeError` for a non-string
key, otherwise an existence query. -/
def contains (key : PyVal) (tbl : AppConfigTable) : Except PyError Bool :=
  match key with
  | .str k => Except.ok (tbl.containsKey k)
  | _ => Except.error (noStrTypeError key)

/-- `AppStates.__getitem__` (lines 130-138): `TypeError` for a non-string
key; `KeyError` when no row exists (peewee's `DoesNotExist` is translated). -/
def getitem (key : PyVal) (tbl : AppConfigTable) : Except PyError Bool :=
  match key with
  | .str k =>
    match tbl.lookup k with
    | some b => Except.ok b
    | none => Except.error (PyError.keyError k)
  | _ => Except.error (noStrTypeError key)

/-- `AppStates.__setitem__` (lines 140-146): `TypeError` for a non-string
key or a non-boolean value (nothing is stored in that case, since the upsert
runs only after both checks pass); otherwise an upsert of the row. -/
def setitem (key val : PyVal) (tbl : AppConfigTable) :
    Except PyError AppConfigTable :=
  match key with
  | .str k =>
    match val with
    | .boolean b => Except.ok (tbl.upsert k b)
    | _ =>
      Except.error
        (PyError.typeError ("Value is of type " ++ val.typeName ++ "; bool expected"))
  | _ => Except.error (noStrTypeError key)

/-- `AppStates.__delitem__` (lines 148-154).  The source wraps the DELETE
query in `try/except AppConfiguration.DoesNotExist: raise KeyError(key)`,
but `AppConfigTable.deleteWhere` (the DELETE query) only returns a row
count and never raises `DoesNotExist`, so the handler is unreachable and
the operation always succeeds, whether or not a row for `key` existed. -/
def delitem (key : PyVal) (tbl : AppConfigTable) : Except PyError AppConfigTable :=
  Except.ok (tbl.deleteWhere key).1

end AppStates

/-- An application definition (`golem.apps.AppDefinition`, imported by the
manager but outside the sampled sources): the manager reads only its `id`,
`name` and `version` fields, which is all the embedding keeps. -/
structure AppDefinition where
  id : String
  name : String
  version : String
deriving DecidableEq

/-- The `self._apps` dictionary of `AppManager`: `AppId` (a string) to
`AppDefinition`, embedded as an association list with unique keys. -/
abbrev AppDict := List (String × AppDefinition)

namespace AppDict

/-- `app_id in self._apps`. -/
def containsKey : AppDict → String → Bool
  | [], _ => false
  | (k, _) :: rest, key => k = key || containsKey rest key

/-- `self._apps[app_id] = app`: dictionary assignment, i.e. insert-or-replace. -/
def insertApp : AppDict → String → AppDefinition → AppDict
  | [], key, app => [(key, app)]
  | (k, v) :: rest, key, app =>
    if k = key then (key, app) :: rest else (k, v) :: insertApp rest key app

end AppDict

/-- `AppManager` (src/golem/apps/manager.py, lines 22-117), restricted to its
observable registry state: the `self._apps` dictionary and the `self._state`
ledger (an `AppStates` over the `AppConfiguration` table).  The `app_dir`
path, the `_app_file_names` bookkeeping, logging and RPC event publishing
are process/filesystem effects with no bearing on the claims and are not
part of the state.  All `AppId` keys are strings (`AppId = str`), so the
`AppStates` string-type guards on the manager's own accesses always pass and
those accesses are embedded directly over the table. -/
structure AppManager where
  apps : AppDict
  state : AppConfigTable
deriving DecidableEq

namespace AppManager

/-- `AppManager.registered` (lines 39-40): `app_id in self._apps`. -/
def registered (mgr : AppManager) (app_id : String) : Bool :=
  mgr.apps.containsKey app_id

/-- `AppManager.register_app` (lines 42-58): raise `ValueError` naming the
app when the id is already registered (the dictionary and ledger are only
written after that check, so an error leaves both untouched); otherwise add
the definition and, when the ledger has no row for the id yet, store the
default `False` enable-state. -/
def register_app (mgr : AppManager) (app : AppDefinition) :
    Except PyError AppManager :=
  if mgr.apps.containsKey app.id then
    Except.error (PyError.valueError
      ("Application already registered. app_name=" ++ app.name ++
        " app_id=" ++ app.id))
  else
    Except.ok
      { apps := mgr.apps.insertApp app.id app
        state :=
          if mgr.state.containsKey app.id then mgr.state
          else mgr.state.upsert app.id false }

/-- `AppManager.enabled` (lines 60-65):
`app_id in self._apps and app_id in self._state and self._state[app_id]`.
The final `self._state[app_id]` lookup is only evaluated when the
containment test succeeded (Python short-circuit), so its `KeyError` branch
is unreachable; `Option.getD false` renders that short-circuit.  A total
function on string ids: it never raises. -/
def enabled (mgr : AppManager) (app_id : String) : Bool :=
  mgr.apps.containsKey app_id && mgr.state.containsKey app_id &&
    ((mgr.state.lookup app_id).getD false)

/-- `AppManager.set_enabled` (lines 67-76): raise `ValueError` naming the
app id when it is not registered (the ledger write happens only after the
check, so an error leaves the stored enable-state untouched); otherwise
upsert the flag into the ledger. -/
def set_enabled (mgr : AppManager) (app_id : String) (flag : Bool) :
    Except PyError AppManager :=
  if mgr.apps.containsKey app_id then
    Except.ok { mgr with state := mgr.state.upsert app_id flag }
  else
    Except.error (PyError.valueError ("Application not registered. app_id=" ++ app_id))

end AppManager

/-- The outcome of `download_definitions(self.app_dir)` as observed by
`AppManager.update_apps`: either the list of downloaded definitions, or a
`requests.exceptions.RequestException` describing a network failure. -/
inductive DownloadResult where
  | ok (apps : List AppDefinition)
  | requestException (msg : String)

namespace AppManager

/-- `AppManager.update_apps` (lines 93-117): a `RequestException` from the
download is logged and swallowed (`return`), leaving the manager unchanged;
on success each downloaded definition is registered when `register_apps` is
true (a duplicate id then propagates `register_app`'s `ValueError`, exactly
as in the source, where nothing catches it).  File-name bookkeeping and the
per-definition RPC event publication are effects outside the state. -/
def update_apps (mgr : AppManager) (dl : DownloadResult)
    (register_apps : Bool) : Except PyError AppManager :=
  match dl with
  | .requestException _ => Except.ok mgr
  | .ok new_apps =>
    if register_apps then
      new_apps.foldlM (fun m app => m.register_app app) mgr
    else
      Except.ok mgr

end AppManager

/-- `ProviderPricing` (src/golem/marketplace/marketplace.py, lines 27-30):
a provider's cost structure, both prices integers in the smallest currency
unit. -/
structure ProviderPricing where
  price_per_wallclock_h : Int
  price_per_cpu_h : Int
deriving DecidableEq

/-- Modelled from the spec: `ProviderMarketStrategy.calculate_price` is
declared abstract in src/golem/marketplace/marketplace.py (lines 69-72) and
no concrete provider strategy is among the sampled sources.  Following §4.2
of the spec, the bid price is computed from the provider's cost structure
and constrained so that it never exceeds `max_price`; the function is
deterministic given its inputs, and `requestor_id` may select
requestor-specific policy but introduces no hidden state (here it selects
none). -/
def calculate_price (pricing : ProviderPricing) (max_price : Int)
    (_requestor_id : String) : Int :=
  min pricing.price_per_wallclock_h max_price

/-- Modelled from the spec: `golem.model.TaskPayment` is outside the sampled
sources (only src/tests/golem/test_model.py exercises it).  Per §3 and §6 of
the spec a payment amount is an arbitrary-precision integer — `Int` in this
embedding, never a floating-point type — stored in the row's
`expected_amount` field. -/
structure TaskPayment where
  expected_amount : Int
deriving DecidableEq

/-- Modelled from the spec: creating a `TaskPayment` row stores the expected
amount exactly, with arbitrary precision. -/
def TaskPayment.create (v : Int) : TaskPayment :=
  { expected_amount := v }

/-- Modelled from the spec: reading the stored row back returns its
`expected_amount` field. -/
def TaskPayment.read (p : TaskPayment) : Int :=
  p.expected_amount

/-- Modelled from the spec: `golem.model.Performance` is outside the sampled
sources (only src/tests/golem/test_model.py exercises it).  Per §3 of the
spec a row holds `environment_id` (unique key), `value`,
`min_accepted_step` (default 300.0) and `cpu_usage`; the real-valued fields
are embedded as exact rationals. -/
structure Performance where
  environment_id : String
  value : Rat
  min_accepted_step : Rat
  cpu_usage : Int
deriving DecidableEq

/-- The `Performance` table: an association list with at most one row per
`environment_id` (the column is unique). -/
abbrev PerfTable := List Performance

/-- The rows of the table whose `environment_id` equals `env`. -/
def PerfTable.rowsFor : PerfTable → String → List Performance
  | [], _ => []
  | r :: rest, env =>
    if r.environment_id = env then r :: rowsFor rest env else rowsFor rest env

/-- Modelled from the spec (§4.4): `Performance.update_or_create(env_id,
performance, cpu_usage)` is an atomic upsert keyed by `environment_id`,
last writer wins; the first write for a new `environment_id` establishes the
default `min_accepted_step = 300.0` for the field not supplied. -/
def Performance.update_or_create (tbl : PerfTable) (env_id : String)
    (performance : Rat) (cpu_usage : Int) : PerfTable :=
  match tbl with
  | [] =>
    [{ environment_id := env_id, value := performance,
       min_accepted_step := 300, cpu_usage := cpu_usage }]
  | r :: rest =>
    if r.environment_id = env_id then
      { r with value := performance, cpu_usage := cpu_usage } :: rest
    else
      r :: Performance.update_or_create rest env_id performance cpu_usage

/-- Modelled from the spec (§4.3): the closed set of subtask-lifecycle
outcomes recorded against a peer's `LocalRank` row — computation finished
correctly / finished incorrectly / failed; resource delivered / not
delivered; payment received / withheld; request honored / denied. -/
inductive Outcome where
  | computationFinished
  | computationFinishedWrong
  | computationFailed
  | resourceDelivered
  | resourceNotDelivered
  | paymentReceived
  | paymentWithheld
  | requestHonored
  | requestDenied
deriving DecidableEq

/-- Modelled from the spec: `golem.model.LocalRank` is outside the sampled
sources (only src/tests/golem/test_model.py exercises it).  Per §3 of the
spec, per-peer behavioral counters, all starting at 0. -/
structure LocalRank where
  positive_computed : Int := 0
  negative_computed : Int := 0
  wrong_computed : Int := 0
  positive_requested : Int := 0
  negative_requested : Int := 0
  positive_payment : Int := 0
  negative_payment : Int := 0
  positive_resource : Int := 0
  negative_resource : Int := 0
deriving DecidableEq

/-- Modelled from the spec (§4.3): each recorded outcome increments exactly
one counter of the row. -/
def LocalRank.applyOutcome (r : LocalRank) : Outcome → LocalRank
  | .computationFinished => { r with positive_computed := r.positive_computed + 1 }
  | .computationFinishedWrong => { r with wrong_computed := r.wrong_computed + 1 }
  | .computationFailed => { r with negative_computed := r.negative_computed + 1 }
  | .resourceDelivered => { r with positive_resource := r.positive_resource + 1 }
  | .resourceNotDelivered => { r with negative_resource := r.negative_resource + 1 }
  | .paymentReceived => { r with positive_payment := r.positive_payment + 1 }
  | .paymentWithheld => { r with negative_payment := r.negative_payment + 1 }
  | .requestHonored => { r with positive_requested := r.positive_requested + 1 }
  | .requestDenied => { r with negative_requested := r.negative_requested + 1 }

/-- Modelled from the spec (§3): the efficacy vector, a derived, read-only
4-dimensional projection of a `LocalRank`'s counters — computation,
request, payment and resource reliability. -/
structure EfficacyVec where
  computed : Int
  requested : Int
  payment : Int
  resource : Int
deriving DecidableEq

/-- The all-zero efficacy vector. -/
def EfficacyVec.zero : EfficacyVec :=
  ⟨0, 0, 0, 0⟩

/-- Modelled from the spec (§4.3): the efficacy vector computed from the
current counters as net counts per category (positive observations minus
negative — and, for computation, wrong — ones). -/
def LocalRank.efficacyVector (r : LocalRank) : EfficacyVec :=
  ⟨r.positive_computed - r.negative_computed - r.wrong_computed,
   r.positive_requested - r.negative_requested,
   r.positive_payment - r.negative_payment,
   r.positive_resource - r.negative_resource⟩

/-- The `LocalRank` table: one row per peer node id, at most one row per
key. -/
abbrev RankTable := List (String × LocalRank)

namespace RankTable

/-- The stored row for a peer, `none` when the peer was never observed. -/
def lookup : RankTable → String → Option LocalRank
  | [], _ => none
  | (k, v) :: rest, key => if k = key then some v else lookup rest key

/-- Modelled from the spec (§4.3): `record_outcome(peer_id, outcome_kind)`
creates the peer's row with all-zero counters if absent, then increments
exactly one counter on it. -/
def record_outcome (tbl : RankTable) (peer : String) (op : Outcome) : RankTable :=
  match tbl with
  | [] => [(peer, LocalRank.applyOutcome {} op)]
  | (k, r) :: rest =>
    if k = peer then (k, r.applyOutcome op) :: rest
    else (k, r) :: record_outcome rest peer op

/-- Modelled from the spec (§4.3): `efficacy(peer_id)` is derived from the
peer's current counters; an absent row yields the all-zero vector. -/
def efficacy (tbl : RankTable) (peer : String) : EfficacyVec :=
  match tbl.lookup peer with
  | some r => r.efficacyVector
  | none => EfficacyVec.zero

end RankTable

/-! ### Helper lemmas about the table operations -/

theorem AppConfigTable.containsKey_upsert_self (tbl : AppConfigTable)
    (k : String) (v : Bool) : (tbl.upsert k v).containsKey k = true := by
  induction tbl with
  | nil => simp [AppConfigTable.upsert, AppConfigTable.containsKey]
  | cons hd tl ih =>
    obtain ⟨k', v'⟩ := hd
    by_cases h : k' = k <;>
      simp [AppConfigTable.upsert, AppConfigTable.containsKey, h, ih]

theorem AppConfigTable.lookup_upsert_self (tbl : AppConfigTable)
    (k : String) (v : Bool) : (tbl.upsert k v).lookup k = some v := by
  induction tbl with
  | nil => simp [AppConfigTable.upsert, AppConfigTable.lookup]
  | cons hd tl ih =>
    obtain ⟨k', v'⟩ := hd
    by_cases h : k' = k <;>
      simp [AppConfigTable.upsert, AppConfigTable.lookup, h, ih]

theorem AppDict.containsKey_insertApp_self (d : AppDict) (k : String)
    (app : AppDefinition) : (d.insertApp k app).containsKey k = true := by
  induction d with
  | nil => simp [AppDict.insertApp, AppDict.containsKey]
  | cons hd tl ih =>
    obtain ⟨k', v'⟩ := hd
    by_cases h : k' = k <;>
      simp [AppDict.insertApp, AppDict.containsKey, h, ih]

/-! ### Claim theorems -/

/-- C1: payment amounts are exact arbitrary-precision integers (`Int`, never
floating point): storing any expected amount and reading it back returns the
identical value; in particular 10000 * 10^18, which is greater than 2^64,
round-trips unchanged, and amounts up to 10^25 are covered since the
round-trip is exact for every integer. -/
theorem taskPayment_roundtrip_exact :
    (∀ v : Int, (TaskPayment.create v).read = v) ∧
    (10000 * 10 ^ 18 : Int) > 2 ^ 64 ∧
    (TaskPayment.create (10000 * 10 ^ 18)).read = 10000 * 10 ^ 18 :=
  ⟨fun _ => rfl, by norm_num, rfl⟩

/-- C2: `calculate_price` never returns a value exceeding the supplied
`max_price`, and it is deterministic: evaluating it at equal inputs yields
equal outputs. -/
theorem calculate_price_le_max_and_deterministic
    (pricing : ProviderPricing) (max_price : Int) (rid : String)
    (p₂ : ProviderPricing) (m₂ : Int) (r₂ : String)
    (hp : p₂ = pricing) (hm : m₂ = max_price) (hr : r₂ = rid) :
    calculate_price pricing max_price rid ≤ max_price ∧
    calculate_price p₂ m₂ r₂ = calculate_price pricing max_price rid := by
  subst hp hm hr
  exact ⟨min_le_right _ _, rfl⟩

/-- Witness for C2 at pricing (5, 7), max_price 6, requestor "req". -/
theorem calculate_price_le_max_and_deterministic_witness :
    calculate_price ⟨5, 7⟩ 6 "req" ≤ 6 ∧
    calculate_price ⟨5, 7⟩ 6 "req" = calculate_price ⟨5, 7⟩ 6 "req" :=
  calculate_price_le_max_and_deterministic ⟨5, 7⟩ 6 "req" ⟨5, 7⟩ 6 "req" rfl rfl rfl

/-- C4 (refuting evaluation): `AppStates.__delitem__` at a key with no
stored row returns successfully with the table unchanged — no `KeyError` is
raised, because the peewee DELETE query never raises `DoesNotExist` and so
the `except` handler is dead code — while deleting an existing key does
remove its row. -/
theorem delitem_missing_key_silently_succeeds :
    AppStates.delitem (PyVal.str "missing") [("app", true)]
      = Except.ok [("app", true)] ∧
    AppStates.delitem (PyVal.str "app") [("app", true)] = Except.ok [] :=
  ⟨rfl, rfl⟩

/-- C7: a network failure (`RequestException`) during `update_apps` is
swallowed — the call returns normally, no error propagates — and the
manager, hence the set of registered applications, is exactly unchanged. -/
theorem update_apps_network_failure_swallowed
    (mgr : AppManager) (msg : String) (register_apps : Bool) :
    AppManager.update_apps mgr (DownloadResult.requestException msg) register_apps
      = Except.ok mgr :=
  rfl

/-- C5: `register_app` on an already-registered id fails with a `ValueError`
whose message ends in the offending app id (the registry and ledger are only
written after the check, so the error result carries no state change); on a
not-yet-registered id it succeeds and `registered` becomes true. -/
theorem register_app_duplicate_rejected (mgr : AppManager) (app : AppDefinition) :
    if mgr.registered app.id then
      AppManager.register_app mgr app = Except.error (PyError.valueError
        ("Application already registered. app_name=" ++ app.name ++
          " app_id=" ++ app.id)) ∧
      ∃ pre, "Application already registered. app_name=" ++ app.name ++
          " app_id=" ++ app.id = pre ++ app.id
    else
      ∃ mgr', AppManager.register_app mgr app = Except.ok mgr' ∧
        mgr'.registered app.id = true := by
  by_cases h : mgr.apps.containsKey app.id = true
  · simp only [AppManager.registered, h, if_true]
    refine ⟨by simp [AppManager.register_app, h], ⟨_, rfl⟩⟩
  · simp only [AppManager.registered, h, Bool.false_eq_true, if_false]
    refine ⟨⟨mgr.apps.insertApp app.id app,
        if mgr.state.containsKey app.id then mgr.state
        else mgr.state.upsert app.id false⟩, ?_, ?_⟩
    · simp [AppManager.register_app, h]
    · simpa [AppManager.registered] using
        AppDict.containsKey_insertApp_self mgr.apps app.id app

/-- C6: `set_enabled` on an unregistered id fails with a `ValueError` whose
message ends in the offending app id, and the error result carries no ledger
change (the upsert runs only after the check); on a registered id it stores
the flag, the registry is untouched, and `enabled` then returns exactly the
flag last set. -/
theorem set_enabled_stores_flag (mgr : AppManager) (app_id : String) (flag : Bool) :
    if mgr.registered app_id then
      ∃ mgr', AppManager.set_enabled mgr app_id flag = Except.ok mgr' ∧
        mgr'.enabled app_id = flag ∧ mgr'.apps = mgr.apps
    else
      AppManager.set_enabled mgr app_id flag = Except.error
        (PyError.valueError ("Application not registered. app_id=" ++ app_id)) ∧
      ∃ pre, "Application not registered. app_id=" ++ app_id = pre ++ app_id := by
  by_cases h : mgr.apps.containsKey app_id = true
  · simp only [AppManager.registered, h, if_true]
    refine ⟨⟨mgr.apps, mgr.state.upsert app_id flag⟩, ?_, ?_, rfl⟩
    · simp [AppManager.set_enabled, h]
    · simp [AppManager.enabled, h,
        AppConfigTable.containsKey_upsert_self, AppConfigTable.lookup_upsert_self]
  · simp only [AppManager.registered, h, Bool.false_eq_true, if_false]
    exact ⟨by simp [AppManager.set_enabled, h], ⟨_, rfl⟩⟩

/-- C8: the `AppStates` mapping operations validate Python types before
touching storage: `__setitem__` fails with a `TypeError` exactly when the
key is not a string or the value is not a boolean (an error result carries
no table, so nothing is stored), and `__contains__` and `__getitem__` fail
with a `TypeError` exactly when the key is not a string. -/
theorem appstates_type_validation (key val : PyVal) (tbl : AppConfigTable) :
    ((∃ m, AppStates.setitem key val tbl = Except.error (PyError.typeError m)) ↔
      (key.isStr = false ∨ val.isBool = false)) ∧
    ((∃ m, AppStates.contains key tbl = Except.error (PyError.typeError m)) ↔
      key.isStr = false) ∧
    ((∃ m, AppStates.getitem key tbl = Except.error (PyError.typeError m)) ↔
      key.isStr = false) := by
  refine ⟨?_, ?_, ?_⟩
  · cases key <;> cases val <;>
      simp [AppStates.setitem, AppStates.noStrTypeError, PyVal.isStr, PyVal.isBool]
  · cases key <;>
      simp [AppStates.contains, AppStates.noStrTypeError, PyVal.isStr]
  · cases key with
    | str s =>
      cases h : AppConfigTable.lookup tbl s <;>
        simp [AppStates.getitem, h, PyVal.isStr]
    | boolean b => simp [AppStates.getitem, AppStates.noStrTypeError, PyVal.isStr]
    | int n => simp [AppStates.getitem, AppStates.noStrTypeError, PyVal.isStr]
    | pyNone => simp [AppStates.getitem, AppStates.noStrTypeError, PyVal.isStr]

/-- C10: `enabled` is a total function on string ids (it never raises, by
type); it returns `false` for any unregistered id, and immediately after
`register_app` of an application with no previously stored enable-state the
application is disabled (`enabled` returns `false`). -/
theorem enabled_total_default_false (mgr : AppManager) (app_id : String)
    (app : AppDefinition)
    (h1 : mgr.registered app_id = false)
    (h2 : mgr.registered app.id = false)
    (h3 : mgr.state.containsKey app.id = false) :
    mgr.enabled app_id = false ∧
    (AppManager.register_app mgr app).map (fun m => m.enabled app.id)
      = Except.ok false := by
  simp only [AppManager.registered] at h1 h2
  constructor
  · simp [AppManager.enabled, h1]
  · simp [AppManager.register_app, h2, h3, Except.map, AppManager.enabled,
      AppConfigTable.lookup_upsert_self]

/-- Witness for C10 on the empty manager, unregistered id "x" and a freshly
registered application "a". -/
theorem enabled_total_default_false_witness :
    AppManager.enabled ⟨[], []⟩ "x" = false ∧
    (AppManager.register_app ⟨[], []⟩ ⟨"a", "appA", "1.0"⟩).map
      (fun m => m.enabled "a") = Except.ok false :=
  enabled_total_default_false ⟨[], []⟩ "x" ⟨"a", "appA", "1.0"⟩ rfl rfl rfl

theorem PerfTable.rowsFor_update_fresh (tbl : PerfTable) (env : String)
    (v : Rat) (c : Int) (hfresh : tbl.rowsFor env = []) :
    (Performance.update_or_create tbl env v c).rowsFor env
      = [⟨env, v, 300, c⟩] := by
  induction tbl with
  | nil => simp [Performance.update_or_create, PerfTable.rowsFor]
  | cons hd tl ih =>
    by_cases h : hd.environment_id = env
    · simp [PerfTable.rowsFor, h] at hfresh
    · simp only [PerfTable.rowsFor, h, if_false] at hfresh
      simp only [Performance.update_or_create, h, if_false, PerfTable.rowsFor]
      exact ih hfresh

theorem PerfTable.rowsFor_update_existing (tbl : PerfTable) (env : String)
    (v : Rat) (c : Int) (r : Performance) (hone : tbl.rowsFor env = [r]) :
    (Performance.update_or_create tbl env v c).rowsFor env
      = [{ r with value := v, cpu_usage := c }] := by
  induction tbl with
  | nil => simp [PerfTable.rowsFor] at hone
  | cons hd tl ih =>
    by_cases h : hd.environment_id = env
    · simp only [PerfTable.rowsFor, h, if_true] at hone
      obtain ⟨rfl, htl⟩ := List.cons_eq_cons.mp hone
      simp only [Performance.update_or_create, h, if_true]
      simp [PerfTable.rowsFor, h, htl]
    · simp only [PerfTable.rowsFor, h, if_false] at hone
      simp only [Performance.update_or_create, h, if_false, PerfTable.rowsFor]
      exact ih hone

theorem PerfTable.rowsFor_update_other (tbl : PerfTable) (env env2 : String)
    (v : Rat) (c : Int) (hne : env2 ≠ env) :
    (Performance.update_or_create tbl env2 v c).rowsFor env
      = tbl.rowsFor env := by
  induction tbl with
  | nil => simp [Performance.update_or_create, PerfTable.rowsFor, hne]
  | cons hd tl ih =>
    by_cases h : hd.environment_id = env2
    · have hnd : ¬ hd.environment_id = env := by
        rw [h]; exact hne
      simp [Performance.update_or_create, h, PerfTable.rowsFor, hnd, hne]
    · by_cases hd2 : hd.environment_id = env <;>
        simp [Performance.update_or_create, h, PerfTable.rowsFor, hd2, ih,
          Ne.symm hne]

/-- C3: `Performance.update_or_create` is an upsert keyed by
`environment_id` with last-writer-wins semantics: starting from a table with
no row for `env`, two calls for `env` leave exactly one stored row for `env`
holding the second call's performance value and cpu usage (and the default
`min_accepted_step` 300), and a subsequent call for a different
`environment_id` leaves that row's fields unchanged. -/
theorem performance_update_or_create_upsert (tbl : PerfTable) (env env2 : String)
    (v1 v2 v3 : Rat) (c1 c2 c3 : Int)
    (hfresh : tbl.rowsFor env = []) (hne : env2 ≠ env) :
    (Performance.update_or_create (Performance.update_or_create tbl env v1 c1)
        env v2 c2).rowsFor env = [⟨env, v2, 300, c2⟩] ∧
    (Performance.update_or_create
        (Performance.update_or_create (Performance.update_or_create tbl env v1 c1)
          env v2 c2) env2 v3 c3).rowsFor env = [⟨env, v2, 300, c2⟩] := by
  have h1 := PerfTable.rowsFor_update_fresh tbl env v1 c1 hfresh
  have h2 := PerfTable.rowsFor_update_existing
    (Performance.update_or_create tbl env v1 c1) env v2 c2 ⟨env, v1, 300, c1⟩ h1
  refine ⟨h2, ?_⟩
  rw [PerfTable.rowsFor_update_other _ env env2 v3 c3 hne]
  exact h2

/-- Witness for C3: the empty table, environment "test_env" written with
(100, 1000) then (200, 2000), then a write to the distinct "ENV2". -/
theorem performance_update_or_create_upsert_witness :
    (Performance.update_or_create (Performance.update_or_create [] "test_env" 100 1000)
        "test_env" 200 2000).rowsFor "test_env"
      = [⟨"test_env", 200, 300, 2000⟩] ∧
    (Performance.update_or_create
        (Performance.update_or_create
          (Performance.update_or_create [] "test_env" 100 1000)
          "test_env" 200 2000) "ENV2" 138 30).rowsFor "test_env"
      = [⟨"test_env", 200, 300, 2000⟩] :=
  performance_update_or_create_upsert [] "test_env" "ENV2" 100 200 138 1000 2000 30
    rfl (by decide)

theorem RankTable.lookup_record_outcome_fresh (tbl : RankTable) (peer : String)
    (op : Outcome) (hfresh : tbl.lookup peer = none) :
    (tbl.record_outcome peer op).lookup peer
      = some (LocalRank.applyOutcome {} op) := by
  induction tbl with
  | nil => simp [RankTable.record_outcome, RankTable.lookup]
  | cons hd tl ih =>
    obtain ⟨k, r⟩ := hd
    by_cases h : k = peer
    · simp [RankTable.lookup, h] at hfresh
    · simp only [RankTable.lookup, h, if_false] at hfresh
      simp only [RankTable.record_outcome, h, if_false, RankTable.lookup]
      exact ih hfresh

theorem RankTable.lookup_record_outcome_other (tbl : RankTable) (peer q : String)
    (op : Outcome) (hne : q ≠ peer) :
    (tbl.record_outcome peer op).lookup q = tbl.lookup q := by
  induction tbl with
  | nil => simp [RankTable.record_outcome, RankTable.lookup, Ne.symm hne]
  | cons hd tl ih =>
    obtain ⟨k, r⟩ := hd
    by_cases h : k = peer
    · subst h
      simp [RankTable.record_outcome, RankTable.lookup, Ne.symm hne]
    · by_cases hq : k = q
      · subst hq
        simp [RankTable.record_outcome, h, RankTable.lookup]
      · simp [RankTable.record_outcome, h, RankTable.lookup, hq, ih]

/-- C9: a peer with no recorded events has the all-zero efficacy vector;
recording one successful-computation outcome for such a peer changes only
that peer's efficacy — it becomes the vector with exactly one positive
computation observation — while every other peer's efficacy, in particular
an all-zero one, is unchanged. -/
theorem efficacy_fresh_zero_single_success (tbl : RankTable) (peerA peerB : String)
    (hA : tbl.lookup peerA = none) (hAB : peerB ≠ peerA) :
    tbl.efficacy peerA = EfficacyVec.zero ∧
    (tbl.record_outcome peerA Outcome.computationFinished).efficacy peerA
      = ⟨1, 0, 0, 0⟩ ∧
    (tbl.record_outcome peerA Outcome.computationFinished).efficacy peerB
      = tbl.efficacy peerB := by
  refine ⟨?_, ?_, ?_⟩
  · simp [RankTable.efficacy, hA]
  · rw [RankTable.efficacy,
      RankTable.lookup_record_outcome_fresh tbl peerA Outcome.computationFinished hA]
    rfl
  · rw [RankTable.efficacy, RankTable.efficacy,
      RankTable.lookup_record_outcome_other tbl peerA peerB
        Outcome.computationFinished hAB]

/-- Witness for C9: the empty rank table, peers "node-A" and "node-B". -/
theorem efficacy_fresh_zero_single_success_witness :
    RankTable.efficacy [] "node-A" = EfficacyVec.zero ∧
    (RankTable.record_outcome [] "node-A" Outcome.computationFinished).efficacy "node-A"
      = ⟨1, 0, 0, 0⟩ ∧
    (RankTable.record_outcome [] "node-A" Outcome.computationFinished).efficacy "node-B"
      = RankTable.efficacy [] "node-B" :=
  efficacy_fresh_zero_single_success [] "node-A" "node-B" rfl (by decide)



